import Mathlib

/-
Verification development for the smtp-channel repository (src/index.js).
The JavaScript source is shallowly embedded: nullable JS strings become
Option String, JS promises become an at-most-once settlement slot, and the
event-driven command correlator (_resolveCommand) becomes an explicit
transition system over line / close / error events.  The channel lifecycle
methods (_connectAsPromised, _closeAsPromised, _writeAsPromised,
_negotiateTLSAsPromised, _onClose, _onTimeout) become functions on an
explicit channel record.
-/

namespace SMTP

/-- JS truthiness of a nullable string: null and the empty string are falsy,
every other string is truthy. -/
def jsTruthy : Option String → Bool
  | none => false
  | some s => decide (¬ s = "")

/-- JS String.prototype.substr for a nonnegative start index and length:
the chunk of up to len characters beginning at start. -/
def jsSubstr (s : String) (start len : Nat) : String :=
  String.mk ((s.toList.drop start).take len)

/-- JS String.prototype.charAt: the one-character string at index i, or the
empty string when i is out of range. -/
def jsCharAt (s : String) (i : Nat) : String :=
  match s.toList[i]? with
  | some c => String.mk [c]
  | none => ""

/-- parseReplyCode from src/index.js: `return line ? line.substr(0, 3) : null`. -/
def parseReplyCode (line : Option String) : Option String :=
  if jsTruthy line then some (jsSubstr (line.getD "") 0 3) else none

/-- isLastReply from src/index.js: `return line ? line.charAt(3) === SP : null`
where SP is the one-character space string. -/
def isLastReply (line : Option String) : Option Bool :=
  if jsTruthy line then some (decide (jsCharAt (line.getD "") 3 = " ")) else none

/-- A caller-supplied per-line handler: receives the reply line together with
the code and isLast arguments that _resolveCommand computes, and either
returns normally or raises (modelled by Except, the error being the thrown
message). -/
abbrev HandlerFn : Type := String → Option String → Option Bool → Except String Unit

/-- Rejection values used by _resolveCommand. -/
inductive JsError where
  /-- the rejection `new Error(SocketHasClosedUnexpectedly)` raised by the
  onClose listener when the socket closes before the last reply -/
  | socketClosedUnexpectedly : JsError
  /-- an error emitted by the socket, propagated verbatim by onError -/
  | transport (msg : String) : JsError
  /-- a value thrown by the caller-supplied handler, propagated by the
  `.catch(reject)` of the per-line promise chain -/
  | handlerRaised (msg : String) : JsError
deriving DecidableEq

/-- How the promise handed out by _resolveCommand finally settled. -/
inductive Outcome where
  | resolved (code : Option String) : Outcome
  | rejected (e : JsError) : Outcome
deriving DecidableEq

/-- One recorded handler invocation: the line plus the code and isLast
arguments it was given. -/
abbrev HCall : Type := String × Option String × Option Bool

/-- State of one armed command correlation (one _resolveCommand call):
which of the three listeners installed by arming are still attached, whether
the channel socket reference (this._socket) is still non-null, whether the
channel-level _onClose handler has been registered on the socket by the
connect callback, the promise settlement slot, how many times the resolver
and the rejecter have been invoked, and the log of handler invocations. -/
structure CorrState where
  closeAttached : Bool
  errorAttached : Bool
  lineAttached : Bool
  socketPresent : Bool
  chanCloseRegistered : Bool
  promise : Option Outcome
  resolveCalls : Nat
  rejectCalls : Nat
  handlerCalls : List HCall
deriving DecidableEq

/-- How the correlation was armed.  The distinction fixes the firing order of
the close listeners on the socket: a greeting correlation (armed
synchronously inside _connectAsPromised) registers its close listener before
the connect callback registers the channel _onClose, while a write
correlation (armed by _writeAsPromised after the connection is up) registers
its close listener after the channel _onClose. -/
inductive ArmKind where
  | greeting : ArmKind
  | command : ArmKind
deriving DecidableEq

/-- The greeting correlation right after arming: listeners installed on a
live socket whose connect callback has not run yet, so the channel _onClose
is not registered. -/
def armedGreeting : CorrState :=
  { closeAttached := true
    errorAttached := true
    lineAttached := true
    socketPresent := true
    chanCloseRegistered := false
    promise := none
    resolveCalls := 0
    rejectCalls := 0
    handlerCalls := [] }

/-- A write correlation right after arming: the connection is established, so
the channel _onClose handler is already registered on the socket — before
this correlation's own close listener. -/
def armedCommand : CorrState :=
  { closeAttached := true
    errorAttached := true
    lineAttached := true
    socketPresent := true
    chanCloseRegistered := true
    promise := none
    resolveCalls := 0
    rejectCalls := 0
    handlerCalls := [] }

/-- The armed state a correlation of the given kind starts from. -/
def armedFor : ArmKind → CorrState
  | ArmKind.greeting => armedGreeting
  | ArmKind.command => armedCommand

/-- JS promise semantics: only the first resolve or reject settles the
promise, later calls leave it unchanged. -/
def trySettle (s : CorrState) (o : Outcome) : CorrState :=
  match s.promise with
  | some _ => s
  | none => { s with promise := some o }

/-- Invoking the resolver: the invocation is counted, and settles the promise
only if it is still pending. -/
def callResolve (s : CorrState) (code : Option String) : CorrState :=
  trySettle { s with resolveCalls := s.resolveCalls + 1 } (Outcome.resolved code)

/-- Invoking the rejecter: the invocation is counted, and settles the promise
only if it is still pending. -/
def callReject (s : CorrState) (e : JsError) : CorrState :=
  trySettle { s with rejectCalls := s.rejectCalls + 1 } (Outcome.rejected e)

/-- The body of the onClose listener of _resolveCommand: the once-listener is
detached by firing; the listener removes onError only when `this._socket` is
still non-null, always removes onLine from the receive buffer, and rejects. -/
def onCloseRun (s : CorrState) : CorrState :=
  let s0 : CorrState := { s with closeAttached := false }
  let s1 : CorrState := if s0.socketPresent then { s0 with errorAttached := false } else s0
  let s2 : CorrState := { s1 with lineAttached := false }
  callReject s2 JsError.socketClosedUnexpectedly

/-- The body of the onError listener of _resolveCommand: the once-listener is
detached by firing; the body then starts with
`this._socket.removeListener(close, onClose)`, so when the socket reference
has already been nulled a TypeError aborts the listener before any removal
and before the rejecter — otherwise it removes onClose and onLine and rejects
with the socket error. -/
def onErrorRun (s : CorrState) (msg : String) : CorrState :=
  let s0 : CorrState := { s with errorAttached := false }
  if s0.socketPresent then
    callReject { s0 with closeAttached := false, lineAttached := false }
      (JsError.transport msg)
  else
    s0

/-- The channel-level _onClose handler from src/index.js, registered on the
socket by the connect callback: it sets `this._socket = null` (and then emits
the close observer event). -/
def chanOnCloseRun (s : CorrState) : CorrState :=
  { s with socketPresent := false }

/-- The connect success callback of _connectAsPromised as it affects the
greeting correlation: `this._socket.removeAllListeners(error)` strips the
correlation's onError listener, and the channel handlers — the channel
_onClose among them — are then registered on the socket. -/
def connectCallbackCorrEffect (s : CorrState) : CorrState :=
  { s with errorAttached := false, chanCloseRegistered := true }

/-- The `if (handler) handler(line, args)` step of the per-line promise
chain: with no handler it is a no-op that returns normally. -/
def runHandler (handler : Option HandlerFn) (l : String) (code : Option String)
    (isLast : Option Bool) : Except String Unit :=
  match handler with
  | none => Except.ok ()
  | some h => h l code isLast

/-- The body of the onLine listener of _resolveCommand for one delivered
line: compute code and isLast, schedule the microtask chain
`handler(line, args); if (isLast) resolve(code)` with `.catch(reject)`, and
synchronously detach the listeners when the line is terminal.  The detach
block starts with two `this._socket.removeListener` calls, so with a nulled
socket reference a TypeError aborts it before any of the three removals —
the already-scheduled promise chain still settles.  The handler-invocation
log is extended exactly when a handler was supplied. -/
def onLineRun (handler : Option HandlerFn) (s : CorrState) (l : String) : CorrState :=
  let code := parseReplyCode (some l)
  let isLast := isLastReply (some l)
  let isLastB := isLast.getD false
  let s0 : CorrState :=
    if isLastB && s.socketPresent then
      { s with closeAttached := false, errorAttached := false, lineAttached := false }
    else s
  let s1 : CorrState :=
    if handler.isSome then { s0 with handlerCalls := s0.handlerCalls ++ [(l, code, isLast)] }
    else s0
  match runHandler handler l code isLast with
  | Except.ok _ => if isLastB then callResolve s1 code else s1
  | Except.error m => callReject s1 (JsError.handlerRaised m)

/-- External events a correlation can observe: a reply line delivered by the
receive buffer, the socket close event, the socket error event, and — for a
greeting correlation — the connection becoming established, which runs the
connect callback. -/
inductive Event where
  | line (l : String) : Event
  | close : Event
  | error (msg : String) : Event
  | connected : Event
deriving DecidableEq

/-- Event dispatch.  A listener body runs only while that listener is
attached.  On the close event the socket fires its listeners in registration
order: for a write correlation the channel _onClose (registered by the
connect callback) fires first and nulls the socket reference, and only then
the correlation's own onClose; for a greeting correlation the correlation's
onClose fires first and the channel _onClose — once registered — after it.
The connected event is the connect callback; a write correlation can only
exist after it, so there it is a no-op. -/
def corrStep (kind : ArmKind) (handler : Option HandlerFn) (s : CorrState) (e : Event) :
    CorrState :=
  match e with
  | Event.line l => if s.lineAttached then onLineRun handler s l else s
  | Event.close =>
    match kind with
    | ArmKind.command =>
      let s1 := if s.chanCloseRegistered then chanOnCloseRun s else s
      if s1.closeAttached then onCloseRun s1 else s1
    | ArmKind.greeting =>
      let s1 := if s.closeAttached then onCloseRun s else s
      if s1.chanCloseRegistered then chanOnCloseRun s1 else s1
  | Event.error m => if s.errorAttached then onErrorRun s m else s
  | Event.connected =>
    match kind with
    | ArmKind.greeting => connectCallbackCorrEffect s
    | ArmKind.command => s

/-- Run one armed correlation of the given kind over a sequence of events. -/
def runCorr (kind : ArmKind) (handler : Option HandlerFn) (evs : List Event) : CorrState :=
  evs.foldl (corrStep kind handler) (armedFor kind)

/-- Whether a socket was opened through the net library (plain) or the tls
library (encrypted). -/
inductive Mode where
  | plain : Mode
  | tls : Mode
deriving DecidableEq

/-- A live socket handle: a fresh identity plus the mode it was created in. -/
structure Sock where
  id : Nat
  mode : Mode
deriving DecidableEq

/-- The per-channel configuration assembled by the constructor: Object.assign
of the host, port and timeout defaults with the user config; secure is the JS
truthiness of the secure option (absent means false). -/
structure SMTPConfig where
  host : String
  port : Nat
  timeout : Nat
  secure : Bool
deriving DecidableEq

/-- The constructor defaults: host localhost, port 25, timeout 0, and no
secure option. -/
def defaultConfig : SMTPConfig :=
  { host := "localhost", port := 25, timeout := 0, secure := false }

/-- The mutable channel record: `this._config`, `this._socket` (nullable),
`this._isSecure`, plus bookkeeping for the model — how many command
correlations have been armed (_resolveCommand calls) and the next fresh
socket identity. -/
structure Channel where
  config : SMTPConfig
  socket : Option Sock
  isSecure : Bool
  armedCount : Nat
  nextId : Nat
deriving DecidableEq

/-- A channel as built by the constructor: no socket, not secure. -/
def mkChannel (cfg : SMTPConfig) : Channel :=
  { config := cfg, socket := none, isSecure := false, armedCount := 0, nextId := 0 }

/-- _createSocket from src/index.js: the tls library is chosen when
`this._config.secure` is truthy or the passed config has secure === true,
otherwise the net library. -/
def createSocketMode (baseSecure optionsSecure : Bool) : Mode :=
  if baseSecure || optionsSecure then Mode.tls else Mode.plain

/-- What the synchronous part of _connectAsPromised did. -/
inductive ConnectAction where
  /-- `if (this._socket) return resolve()` — the promise resolves at once -/
  | resolveImmediately : ConnectAction
  /-- a socket was created via _createSocket and _resolveCommand armed a
  greeting correlation; the promise settles later -/
  | openedSocketAndArmed : ConnectAction
deriving DecidableEq

/-- The synchronous body of _connectAsPromised: with a socket already present
it resolves immediately; otherwise it creates a socket from a copy of
`this._config` and arms a correlation for the greeting. -/
def connectAsPromisedEntry (c : Channel) : Channel × ConnectAction :=
  match c.socket with
  | some _ => (c, ConnectAction.resolveImmediately)
  | none =>
    ({ c with
        socket := some { id := c.nextId, mode := createSocketMode c.config.secure c.config.secure }
        nextId := c.nextId + 1
        armedCount := c.armedCount + 1 },
     ConnectAction.openedSocketAndArmed)

/-- The connect-success callback inside _connectAsPromised:
`this._isSecure = !!options.secure` where options is a copy of
`this._config` (listener wiring on the socket is not tracked here). -/
def connectCallbackRun (c : Channel) : Channel :=
  { c with isSecure := c.config.secure }

/-- The synchronous body of _negotiateTLSAsPromised: all listeners are
removed from the current socket and a replacement socket is created by
_createSocket with options whose secure field is forced to true, wrapping the
same underlying connection. -/
def negotiateEntryRun (c : Channel) : Channel :=
  { c with
      socket := some { id := c.nextId, mode := createSocketMode c.config.secure true }
      nextId := c.nextId + 1 }

/-- The success callback inside _negotiateTLSAsPromised:
`this._isSecure = true`, listeners rewired, promise resolved. -/
def negotiateCallbackRun (c : Channel) : Channel :=
  { c with isSecure := true }

/-- What the synchronous part of _closeAsPromised did. -/
inductive CloseAction where
  /-- `if (!this._socket) return resolve()` — the promise resolves at once -/
  | resolveImmediately : CloseAction
  /-- `socket.once(close, resolve); socket.destroy()` — the named socket was
  destroyed and the promise resolves only when that socket fires its close
  event -/
  | destroyedAwaitingCloseEvent (sid : Nat) : CloseAction
deriving DecidableEq

/-- The synchronous body of _closeAsPromised: with no socket it resolves
immediately; otherwise it registers the resolver on the socket close event,
destroys the socket, and clears `this._socket` right away. -/
def closeAsPromisedEntry (c : Channel) : Channel × CloseAction :=
  match c.socket with
  | none => (c, CloseAction.resolveImmediately)
  | some s => ({ c with socket := none }, CloseAction.destroyedAwaitingCloseEvent s.id)

/-- What the synchronous part of _writeAsPromised did. -/
inductive WriteAction where
  /-- `if (!this._socket) return reject(new Error(SocketHasClosed))` -/
  | rejectNoSocket : WriteAction
  /-- _resolveCommand armed a correlation and the data began streaming to the
  socket -/
  | armedAndStreaming : WriteAction
deriving DecidableEq

/-- The synchronous body of _writeAsPromised: with no socket it rejects with
the no-active-connection error; otherwise it arms a correlation and pipes the
data to the socket. -/
def writeAsPromisedEntry (c : Channel) (_data : String) : Channel × WriteAction :=
  match c.socket with
  | none => (c, WriteAction.rejectNoSocket)
  | some _ => ({ c with armedCount := c.armedCount + 1 }, WriteAction.armedAndStreaming)

/-- The channel-level _onClose handler, attached to every live socket: on the
socket close event it sets `this._socket = null` and then emits the close
observer event. -/
def onChannelCloseRun (c : Channel) : Channel :=
  { c with socket := none }

/-- The externally visible steps _onTimeout takes, in order. -/
inductive TimeoutStep where
  /-- `this.emit(timeout)` -/
  | emitTimeout : TimeoutStep
  /-- `this.write(data)` with the returned promise discarded -/
  | issueWrite (data : String) : TimeoutStep
deriving DecidableEq

/-- The body of _onTimeout: emit the timeout observer event, then call
`this.write(QUIT CRLF)`.  The write result is dropped on the floor — no then,
catch or await — so the step trace records only that the write was issued,
never how it settled. -/
def onTimeoutRun (c : Channel) : Channel × List TimeoutStep :=
  let w := writeAsPromisedEntry c "QUIT\r\n"
  (w.1, [TimeoutStep.emitTimeout, TimeoutStep.issueWrite "QUIT\r\n"])

/-- The isSecure accessor: `return this._isSecure`. -/
def isSecureFn (c : Channel) : Bool :=
  c.isSecure

/-- Whether an optional socket handle is an encrypted one. -/
def modeIsTLS : Option Sock → Bool
  | none => false
  | some s =>
    match s.mode with
    | Mode.tls => true
    | Mode.plain => false

/-- A handler that raises on every line, used as a concrete test input. -/
def hBoom : HandlerFn :=
  fun _ _ _ => Except.error "boom"

/-- A concrete already-connected channel, used as a concrete test input. -/
def chanConnected : Channel :=
  { config := defaultConfig
    socket := some { id := 0, mode := Mode.plain }
    isSecure := false
    armedCount := 1
    nextId := 1 }

/-- Applying a handler to one recorded invocation. -/
def applyH (h : HandlerFn) (c : HCall) : Except String Unit :=
  h c.1 c.2.1 c.2.2

/-- A reachable pending correlation: the close and line listeners are
attached on a live socket, the promise is pending, neither resolver nor
rejecter was ever invoked, and the error listener is attached except for a
greeting correlation whose connect callback has already stripped it (the
callback also being what registers the channel _onClose). -/
def corrUnsettledK (k : ArmKind) (s : CorrState) : Prop :=
  s.closeAttached = true ∧ s.lineAttached = true ∧ s.socketPresent = true ∧
  s.promise = none ∧ s.resolveCalls = 0 ∧ s.rejectCalls = 0 ∧
  (match k with
   | ArmKind.command => s.errorAttached = true ∧ s.chanCloseRegistered = true
   | ArmKind.greeting => s.errorAttached = !s.chanCloseRegistered)

/-- A correlation that settled exactly once: the promise is settled, the
close and line listeners are detached, resolver plus rejecter were invoked
exactly once in total, and whenever the error listener is still attached —
only possible on the close path of a write correlation — the socket
reference has been nulled, so a later error event aborts before the
rejecter.  A greeting correlation never reaches settlement with its error
listener attached. -/
def corrSettledK (k : ArmKind) (s : CorrState) : Prop :=
  s.closeAttached = false ∧ s.lineAttached = false ∧
  s.promise.isSome = true ∧ s.resolveCalls + s.rejectCalls = 1 ∧
  (s.errorAttached = true → s.socketPresent = false) ∧
  (match k with
   | ArmKind.greeting => s.errorAttached = false
   | ArmKind.command => True)

/-- The exactly-once invariant: a correlation is either still pending or it
settled exactly once. -/
def corrInvK (k : ArmKind) (s : CorrState) : Prop :=
  corrUnsettledK k s ∨ corrSettledK k s

/-- A pending correlation with the error-listener flag and the channel
close-handler flag at given values; line events preserve this shape. -/
def unsettledShape (b r : Bool) (s : CorrState) : Prop :=
  s.closeAttached = true ∧ s.errorAttached = b ∧ s.lineAttached = true ∧
  s.socketPresent = true ∧ s.chanCloseRegistered = r ∧ s.promise = none ∧
  s.resolveCalls = 0 ∧ s.rejectCalls = 0

/-- The side condition forced by the counterexample to the literal claim:
the per-line handler returns normally on every non-terminal line (it may
still raise on a terminal line). -/
def handlerBenign (handler : Option HandlerFn) : Prop :=
  ∀ l : String, (isLastReply (some l)).getD false = true ∨
    runHandler handler l (parseReplyCode (some l)) (isLastReply (some l)) = Except.ok ()

/-- Every recorded handler invocation carried exactly the code and isLast
values _resolveCommand computes for its line. -/
def callsWellFormed (s : CorrState) : Prop :=
  ∀ c ∈ s.handlerCalls, c.2.1 = parseReplyCode (some c.1) ∧ c.2.2 = isLastReply (some c.1)

/-- Every recorded handler invocation returned normally. -/
def callsAllOk (h : HandlerFn) (s : CorrState) : Prop :=
  ∀ c ∈ s.handlerCalls, applyH h c = Except.ok ()

/-- The promise is rejected with the failure some recorded handler
invocation raised. -/
def handlerFailurePinned (h : HandlerFn) (s : CorrState) : Prop :=
  ∃ m, s.promise = some (Outcome.rejected (JsError.handlerRaised m)) ∧
    ∃ c ∈ s.handlerCalls, applyH h c = Except.error m

/-- The handler-contract invariant for a correlation armed with handler h:
recorded invocations are well formed; the line listener is only ever attached
on a live socket together with the close listener; while the line listener is
attached and no recorded invocation has failed the promise is still pending;
and as soon as some recorded invocation has failed the promise is rejected
with a recorded failure. -/
def c2Inv (h : HandlerFn) (s : CorrState) : Prop :=
  callsWellFormed s ∧
  (s.lineAttached = true → s.socketPresent = true ∧ s.closeAttached = true) ∧
  (s.lineAttached = true → callsAllOk h s → s.promise = none) ∧
  (¬ callsAllOk h s → handlerFailurePinned h s)

/-- The handler-invocation record onLine builds for a delivered line. -/
def lineCall (l : String) : HCall :=
  (l, parseReplyCode (some l), isLastReply (some l))

theorem jsSubstr_zero (l : String) (len : Nat) :
    jsSubstr l 0 len = String.mk (l.toList.take len) := by
  simp [jsSubstr]

theorem jsCharAt_eq_space_iff (l : String) :
    jsCharAt l 3 = " " ↔ l.toList[3]? = some ' ' := by
  unfold jsCharAt
  cases h3 : l.toList[3]? with
  | none =>
    simp only [h3]
    exact iff_of_false (by decide) (by simp)
  | some c =>
    simp only [h3, Option.some.injEq]
    constructor
    · intro hh
      have h2 : [c] = " ".toList := congrArg String.toList hh
      simpa using h2
    · intro hh
      subst hh
      decide

/-- Claim C3 (amended): for every nonempty line the code is the first up to
three characters of the line (so exactly the first three once the line has at
least three characters), while the empty string and null map to null — not to
an empty code. -/
theorem parseReplyCode_spec_amended (l : String) (h : ¬ l = "") :
    parseReplyCode (some l) = some (String.mk (l.toList.take 3)) ∧
    parseReplyCode (some "") = none ∧
    parseReplyCode none = none := by
  refine ⟨?_, by decide, rfl⟩
  simp [parseReplyCode, jsTruthy, h, jsSubstr_zero]

/-- Claim C3 witness: a concrete nonempty line, with the resulting code
evaluated. -/
theorem parseReplyCode_spec_amended_witness :
    ¬ ("250 OK" : String) = "" ∧ parseReplyCode (some "250 OK") = some "250" := by
  refine ⟨by decide, ?_⟩
  have h := (parseReplyCode_spec_amended "250 OK" (by decide)).1
  exact h.trans (by decide)

/-- Claim C3 counterexample: the input 22 is shorter than three characters,
yet parseReplyCode returns the whole input, not the empty or undefined
value. -/
theorem parseReplyCode_short_counterexample :
    parseReplyCode (some "22") = some "22" ∧
    ¬ (parseReplyCode (some "22") = none ∨ parseReplyCode (some "22") = some "") := by
  decide

/-- Claim C4 (amended): for every nonempty line, isLastReply is true exactly
when the character at index 3 is a space (hence decided correctly for every
line of length at least 4), and is false for nonempty lines shorter than 4
characters; the empty string and null map to null, not false.  The function
is total, so it never throws. -/
theorem isLastReply_spec_amended (l : String) (h : ¬ l = "") :
    (isLastReply (some l) = some true ↔ l.toList[3]? = some ' ') ∧
    (l.toList.length < 4 → isLastReply (some l) = some false) ∧
    isLastReply none = none ∧
    isLastReply (some "") = none := by
  refine ⟨?_, ?_, rfl, by decide⟩
  · simp [isLastReply, jsTruthy, h, jsCharAt_eq_space_iff]
  · intro hlen
    have h3 : l.toList[3]? = none := by
      apply List.getElem?_eq_none
      omega
    have hch : jsCharAt l 3 = "" := by
      unfold jsCharAt
      simp only [h3]
    simp [isLastReply, jsTruthy, h, hch]

/-- Claim C4 witness: a terminal line of length at least 4 and a nonempty
line shorter than 4 characters. -/
theorem isLastReply_spec_amended_witness :
    isLastReply (some "220 hi") = some true ∧ isLastReply (some "abc") = some false := by
  constructor
  · exact (isLastReply_spec_amended "220 hi" (by decide)).1.mpr (by decide)
  · exact (isLastReply_spec_amended "abc" (by decide)).2.1 (by decide)

/-- Claim C4 counterexample: the empty string is shorter than 4 characters,
yet isLastReply returns null rather than false. -/
theorem isLastReply_empty_counterexample :
    isLastReply (some "") = none ∧ ¬ isLastReply (some "") = some false := by
  decide

theorem corrStep_preserves_invK (k : ArmKind) (handler : Option HandlerFn)
    (hb : handlerBenign handler) (s : CorrState) (e : Event) (hs : corrInvK k s) :
    corrInvK k (corrStep k handler s e) := by
  obtain ⟨ca, ea, la, sp, cr, pr, rc, jc, hcs⟩ := s
  cases k with
  | command =>
    dsimp only [corrInvK, corrUnsettledK, corrSettledK] at hs ⊢
    cases hs with
    | inl huns =>
      obtain ⟨h1, h2, h3, h4, h5, h6, h7, h8⟩ := huns
      subst h1 h2 h3 h4 h5 h6 h7 h8
      cases e with
      | connected => exact Or.inl ⟨rfl, rfl, rfl, rfl, rfl, rfl, rfl, rfl⟩
      | close => exact Or.inr ⟨rfl, rfl, rfl, rfl, fun _ => rfl, trivial⟩
      | error msg => exact Or.inr ⟨rfl, rfl, rfl, rfl, fun hx => absurd hx (by simp [corrStep, onCloseRun, onErrorRun, chanOnCloseRun, connectCallbackCorrEffect, callReject, trySettle]), trivial⟩
      | line l =>
        cases handler with
        | none =>
          by_cases hterm : (isLastReply (some l)).getD false = true
          · have hr : corrStep ArmKind.command none
                  (CorrState.mk true true true true true none 0 0 hcs) (Event.line l)
                = CorrState.mk false false false true true
                    (some (Outcome.resolved (parseReplyCode (some l)))) 1 0 hcs := by
              simp [corrStep, onLineRun, runHandler, callResolve, trySettle, hterm]
            rw [hr]
            exact Or.inr ⟨rfl, rfl, rfl, rfl, fun hx => absurd hx (by simp [corrStep, onCloseRun, onErrorRun, chanOnCloseRun, connectCallbackCorrEffect, callReject, trySettle]), trivial⟩
          · simp only [Bool.not_eq_true] at hterm
            have hr : corrStep ArmKind.command none
                  (CorrState.mk true true true true true none 0 0 hcs) (Event.line l)
                = CorrState.mk true true true true true none 0 0 hcs := by
              simp [corrStep, onLineRun, runHandler, hterm]
            rw [hr]
            exact Or.inl ⟨rfl, rfl, rfl, rfl, rfl, rfl, rfl, rfl⟩
        | some hf =>
          by_cases hterm : (isLastReply (some l)).getD false = true
          · cases hres : hf l (parseReplyCode (some l)) (isLastReply (some l)) with
            | ok u =>
              have hr : corrStep ArmKind.command (some hf)
                    (CorrState.mk true true true true true none 0 0 hcs) (Event.line l)
                  = CorrState.mk false false false true true
                      (some (Outcome.resolved (parseReplyCode (some l)))) 1 0
                      (hcs ++ [(l, parseReplyCode (some l), isLastReply (some l))]) := by
                simp [corrStep, onLineRun, runHandler, callResolve, trySettle, hterm, hres]
              rw [hr]
              exact Or.inr ⟨rfl, rfl, rfl, rfl, fun hx => absurd hx (by simp [corrStep, onCloseRun, onErrorRun, chanOnCloseRun, connectCallbackCorrEffect, callReject, trySettle]), trivial⟩
            | error m =>
              have hr : corrStep ArmKind.command (some hf)
                    (CorrState.mk true true true true true none 0 0 hcs) (Event.line l)
                  = CorrState.mk false false false true true
                      (some (Outcome.rejected (JsError.handlerRaised m))) 0 1
                      (hcs ++ [(l, parseReplyCode (some l), isLastReply (some l))]) := by
                simp [corrStep, onLineRun, runHandler, callReject, trySettle, hterm, hres]
              rw [hr]
              exact Or.inr ⟨rfl, rfl, rfl, rfl, fun hx => absurd hx (by simp [corrStep, onCloseRun, onErrorRun, chanOnCloseRun, connectCallbackCorrEffect, callReject, trySettle]), trivial⟩
          · rcases hb l with ht | hok
            · exact absurd ht hterm
            · simp only [Bool.not_eq_true] at hterm
              simp only [runHandler] at hok
              have hr : corrStep ArmKind.command (some hf)
                    (CorrState.mk true true true true true none 0 0 hcs) (Event.line l)
                  = CorrState.mk true true true true true none 0 0
                      (hcs ++ [(l, parseReplyCode (some l), isLastReply (some l))]) := by
                simp [corrStep, onLineRun, runHandler, hterm, hok]
              rw [hr]
              exact Or.inl ⟨rfl, rfl, rfl, rfl, rfl, rfl, rfl, rfl⟩
    | inr hset =>
      obtain ⟨h1, h2, h3, h4, h5, -⟩ := hset
      subst h1 h2
      cases e with
      | line l => exact Or.inr ⟨rfl, rfl, h3, h4, h5, trivial⟩
      | connected => exact Or.inr ⟨rfl, rfl, h3, h4, h5, trivial⟩
      | close =>
        cases cr with
        | false => exact Or.inr ⟨rfl, rfl, h3, h4, h5, trivial⟩
        | true => exact Or.inr ⟨rfl, rfl, h3, h4, fun _ => rfl, trivial⟩
      | error msg =>
        cases ea with
        | false => exact Or.inr ⟨rfl, rfl, h3, h4, h5, trivial⟩
        | true =>
          have hsp : sp = false := h5 rfl
          subst hsp
          exact Or.inr ⟨rfl, rfl, h3, h4, fun hx => absurd hx (by simp [corrStep, onCloseRun, onErrorRun, chanOnCloseRun, connectCallbackCorrEffect, callReject, trySettle]), trivial⟩
  | greeting =>
    dsimp only [corrInvK, corrUnsettledK, corrSettledK] at hs ⊢
    cases hs with
    | inl huns =>
      obtain ⟨h1, h2, h3, h4, h5, h6, hk⟩ := huns
      subst h1 h2 h3 h4 h5 h6
      cases cr with
      | false =>
        have hea : ea = true := by simpa using hk
        subst hea
        cases e with
        | connected => exact Or.inl ⟨rfl, rfl, rfl, rfl, rfl, rfl, rfl⟩
        | close => exact Or.inr ⟨rfl, rfl, rfl, rfl, fun hx => absurd hx (by simp [corrStep, onCloseRun, onErrorRun, chanOnCloseRun, connectCallbackCorrEffect, callReject, trySettle]), rfl⟩
        | error msg => exact Or.inr ⟨rfl, rfl, rfl, rfl, fun hx => absurd hx (by simp [corrStep, onCloseRun, onErrorRun, chanOnCloseRun, connectCallbackCorrEffect, callReject, trySettle]), rfl⟩
        | line l =>
          cases handler with
          | none =>
            by_cases hterm : (isLastReply (some l)).getD false = true
            · have hr : corrStep ArmKind.greeting none
                    (CorrState.mk true true true true false none 0 0 hcs) (Event.line l)
                  = CorrState.mk false false false true false
                      (some (Outcome.resolved (parseReplyCode (some l)))) 1 0 hcs := by
                simp [corrStep, onLineRun, runHandler, callResolve, trySettle, hterm]
              rw [hr]
              exact Or.inr ⟨rfl, rfl, rfl, rfl, fun hx => absurd hx (by simp [corrStep, onCloseRun, onErrorRun, chanOnCloseRun, connectCallbackCorrEffect, callReject, trySettle]), rfl⟩
            · simp only [Bool.not_eq_true] at hterm
              have hr : corrStep ArmKind.greeting none
                    (CorrState.mk true true true true false none 0 0 hcs) (Event.line l)
                  = CorrState.mk true true true true false none 0 0 hcs := by
                simp [corrStep, onLineRun, runHandler, hterm]
              rw [hr]
              exact Or.inl ⟨rfl, rfl, rfl, rfl, rfl, rfl, rfl⟩
          | some hf =>
            by_cases hterm : (isLastReply (some l)).getD false = true
            · cases hres : hf l (parseReplyCode (some l)) (isLastReply (some l)) with
              | ok u =>
                have hr : corrStep ArmKind.greeting (some hf)
                      (CorrState.mk true true true true false none 0 0 hcs) (Event.line l)
                    = CorrState.mk false false false true false
                        (some (Outcome.resolved (parseReplyCode (some l)))) 1 0
                        (hcs ++ [(l, parseReplyCode (some l), isLastReply (some l))]) := by
                  simp [corrStep, onLineRun, runHandler, callResolve, trySettle, hterm, hres]
                rw [hr]
                exact Or.inr ⟨rfl, rfl, rfl, rfl, fun hx => absurd hx (by simp [corrStep, onCloseRun, onErrorRun, chanOnCloseRun, connectCallbackCorrEffect, callReject, trySettle]), rfl⟩
              | error m =>
                have hr : corrStep ArmKind.greeting (some hf)
                      (CorrState.mk true true true true false none 0 0 hcs) (Event.line l)
                    = CorrState.mk false false false true false
                        (some (Outcome.rejected (JsError.handlerRaised m))) 0 1
                        (hcs ++ [(l, parseReplyCode (some l), isLastReply (some l))]) := by
                  simp [corrStep, onLineRun, runHandler, callReject, trySettle, hterm, hres]
                rw [hr]
                exact Or.inr ⟨rfl, rfl, rfl, rfl, fun hx => absurd hx (by simp [corrStep, onCloseRun, onErrorRun, chanOnCloseRun, connectCallbackCorrEffect, callReject, trySettle]), rfl⟩
            · rcases hb l with ht | hok
              · exact absurd ht hterm
              · simp only [Bool.not_eq_true] at hterm
                simp only [runHandler] at hok
                have hr : corrStep ArmKind.greeting (some hf)
                      (CorrState.mk true true true true false none 0 0 hcs) (Event.line l)
                    = CorrState.mk true true true true false none 0 0
                        (hcs ++ [(l, parseReplyCode (some l), isLastReply (some l))]) := by
                  simp [corrStep, onLineRun, runHandler, hterm, hok]
                rw [hr]
                exact Or.inl ⟨rfl, rfl, rfl, rfl, rfl, rfl, rfl⟩
      | true =>
        have hea : ea = false := by simpa using hk
        subst hea
        cases e with
        | connected => exact Or.inl ⟨rfl, rfl, rfl, rfl, rfl, rfl, rfl⟩
        | close => exact Or.inr ⟨rfl, rfl, rfl, rfl, fun hx => absurd hx (by simp [corrStep, onCloseRun, onErrorRun, chanOnCloseRun, connectCallbackCorrEffect, callReject, trySettle]), rfl⟩
        | error msg => exact Or.inl ⟨rfl, rfl, rfl, rfl, rfl, rfl, rfl⟩
        | line l =>
          cases handler with
          | none =>
            by_cases hterm : (isLastReply (some l)).getD false = true
            · have hr : corrStep ArmKind.greeting none
                    (CorrState.mk true false true true true none 0 0 hcs) (Event.line l)
                  = CorrState.mk false false false true true
                      (some (Outcome.resolved (parseReplyCode (some l)))) 1 0 hcs := by
                simp [corrStep, onLineRun, runHandler, callResolve, trySettle, hterm]
              rw [hr]
              exact Or.inr ⟨rfl, rfl, rfl, rfl, fun hx => absurd hx (by simp [corrStep, onCloseRun, onErrorRun, chanOnCloseRun, connectCallbackCorrEffect, callReject, trySettle]), rfl⟩
            · simp only [Bool.not_eq_true] at hterm
              have hr : corrStep ArmKind.greeting none
                    (CorrState.mk true false true true true none 0 0 hcs) (Event.line l)
                  = CorrState.mk true false true true true none 0 0 hcs := by
                simp [corrStep, onLineRun, runHandler, hterm]
              rw [hr]
              exact Or.inl ⟨rfl, rfl, rfl, rfl, rfl, rfl, rfl⟩
          | some hf =>
            by_cases hterm : (isLastReply (some l)).getD false = true
            · cases hres : hf l (parseReplyCode (some l)) (isLastReply (some l)) with
              | ok u =>
                have hr : corrStep ArmKind.greeting (some hf)
                      (CorrState.mk true false true true true none 0 0 hcs) (Event.line l)
                    = CorrState.mk false false false true true
                        (some (Outcome.resolved (parseReplyCode (some l)))) 1 0
                        (hcs ++ [(l, parseReplyCode (some l), isLastReply (some l))]) := by
                  simp [corrStep, onLineRun, runHandler, callResolve, trySettle, hterm, hres]
                rw [hr]
                exact Or.inr ⟨rfl, rfl, rfl, rfl, fun hx => absurd hx (by simp [corrStep, onCloseRun, onErrorRun, chanOnCloseRun, connectCallbackCorrEffect, callReject, trySettle]), rfl⟩
              | error m =>
                have hr : corrStep ArmKind.greeting (some hf)
                      (CorrState.mk true false true true true none 0 0 hcs) (Event.line l)
                    = CorrState.mk false false false true true
                        (some (Outcome.rejected (JsError.handlerRaised m))) 0 1
                        (hcs ++ [(l, parseReplyCode (some l), isLastReply (some l))]) := by
                  simp [corrStep, onLineRun, runHandler, callReject, trySettle, hterm, hres]
                rw [hr]
                exact Or.inr ⟨rfl, rfl, rfl, rfl, fun hx => absurd hx (by simp [corrStep, onCloseRun, onErrorRun, chanOnCloseRun, connectCallbackCorrEffect, callReject, trySettle]), rfl⟩
            · rcases hb l with ht | hok
              · exact absurd ht hterm
              · simp only [Bool.not_eq_true] at hterm
                simp only [runHandler] at hok
                have hr : corrStep ArmKind.greeting (some hf)
                      (CorrState.mk true false true true true none 0 0 hcs) (Event.line l)
                    = CorrState.mk true false true true true none 0 0
                        (hcs ++ [(l, parseReplyCode (some l), isLastReply (some l))]) := by
                  simp [corrStep, onLineRun, runHandler, hterm, hok]
                rw [hr]
                exact Or.inl ⟨rfl, rfl, rfl, rfl, rfl, rfl, rfl⟩
    | inr hset =>
      obtain ⟨h1, h2, h3, h4, h5, hk⟩ := hset
      subst h1 h2
      subst hk
      cases e with
      | line l => exact Or.inr ⟨rfl, rfl, h3, h4, h5, rfl⟩
      | connected => exact Or.inr ⟨rfl, rfl, h3, h4, fun hx => absurd hx (by simp [corrStep, onCloseRun, onErrorRun, chanOnCloseRun, connectCallbackCorrEffect, callReject, trySettle]), rfl⟩
      | error msg => exact Or.inr ⟨rfl, rfl, h3, h4, h5, rfl⟩
      | close =>
        cases cr with
        | false => exact Or.inr ⟨rfl, rfl, h3, h4, h5, rfl⟩
        | true => exact Or.inr ⟨rfl, rfl, h3, h4, fun _ => rfl, rfl⟩

theorem foldl_corrStep_invK (k : ArmKind) (handler : Option HandlerFn)
    (hb : handlerBenign handler) :
    ∀ (evs : List Event) (s : CorrState), corrInvK k s →
      corrInvK k (evs.foldl (corrStep k handler) s) := by
  intro evs
  induction evs with
  | nil => intro s hs; simpa using hs
  | cons e t ih =>
    intro s hs
    simp only [List.foldl_cons]
    exact ih (corrStep k handler s e) (corrStep_preserves_invK k handler hb s e hs)

theorem runCorr_corrInvK (k : ArmKind) (handler : Option HandlerFn)
    (hb : handlerBenign handler) (evs : List Event) : corrInvK k (runCorr k handler evs) := by
  apply foldl_corrStep_invK k handler hb evs (armedFor k)
  cases k with
  | greeting => exact Or.inl ⟨rfl, rfl, rfl, rfl, rfl, rfl, rfl⟩
  | command => exact Or.inl ⟨rfl, rfl, rfl, rfl, rfl, rfl, rfl, rfl⟩

theorem corrStep_preserves_c2Inv (k : ArmKind) (h : HandlerFn) (s : CorrState) (e : Event)
    (hs : c2Inv h s) : c2Inv h (corrStep k (some h) s e) := by
  obtain ⟨ca, ea, la, sp, cr, pr, rc, jc, hcs⟩ := s
  obtain ⟨wf, hlsc, hpend, hpin⟩ := hs
  cases e with
  | connected =>
    cases k with
    | command => exact ⟨wf, hlsc, hpend, hpin⟩
    | greeting => exact ⟨wf, hlsc, hpend, hpin⟩
  | error msg =>
    cases ea <;> cases sp <;> cases pr <;>
      first
      | exact ⟨wf, hlsc, hpend, hpin⟩
      | exact ⟨wf, fun hx => absurd hx (by simp [corrStep, onCloseRun, onErrorRun, chanOnCloseRun, connectCallbackCorrEffect, callReject, trySettle]), fun hx => absurd hx (by simp [corrStep, onCloseRun, onErrorRun, chanOnCloseRun, connectCallbackCorrEffect, callReject, trySettle]), fun hno => hpin hno⟩
      | (refine ⟨wf, fun hx => absurd hx (by simp [corrStep, onCloseRun, onErrorRun, chanOnCloseRun, connectCallbackCorrEffect, callReject, trySettle]), fun hx => absurd hx (by simp [corrStep, onCloseRun, onErrorRun, chanOnCloseRun, connectCallbackCorrEffect, callReject, trySettle]), fun hno => ?_⟩
         obtain ⟨m, hm, -⟩ := hpin hno
         exact absurd hm (by simp))
  | close =>
    cases k <;> cases ca <;> cases sp <;> cases cr <;> cases pr <;>
      first
      | exact ⟨wf, hlsc, hpend, hpin⟩
      | exact ⟨wf, fun hx => absurd (hlsc hx).2 (by simp), hpend, hpin⟩
      | exact ⟨wf, fun hx => absurd hx (by simp [corrStep, onCloseRun, onErrorRun, chanOnCloseRun, connectCallbackCorrEffect, callReject, trySettle]), fun hx => absurd hx (by simp [corrStep, onCloseRun, onErrorRun, chanOnCloseRun, connectCallbackCorrEffect, callReject, trySettle]), fun hno => hpin hno⟩
      | (refine ⟨wf, fun hx => absurd hx (by simp [corrStep, onCloseRun, onErrorRun, chanOnCloseRun, connectCallbackCorrEffect, callReject, trySettle]), fun hx => absurd hx (by simp [corrStep, onCloseRun, onErrorRun, chanOnCloseRun, connectCallbackCorrEffect, callReject, trySettle]), fun hno => ?_⟩
         obtain ⟨m, hm, -⟩ := hpin hno
         exact absurd hm (by simp))
  | line l =>
    cases la with
    | false => exact ⟨wf, hlsc, hpend, hpin⟩
    | true =>
      obtain ⟨hsp, hca⟩ := hlsc rfl
      subst hsp hca
      cases hres : h l (parseReplyCode (some l)) (isLastReply (some l)) with
      | ok u =>
        cases u
        have hnewok : applyH h (l, parseReplyCode (some l), isLastReply (some l))
            = Except.ok () := hres
        cases hterm : (isLastReply (some l)).getD false with
        | false =>
          have hr : corrStep k (some h) (CorrState.mk true ea true true cr pr rc jc hcs)
                (Event.line l)
              = CorrState.mk true ea true true cr pr rc jc
                  (hcs ++ [(l, parseReplyCode (some l), isLastReply (some l))]) := by
            simp [corrStep, onLineRun, runHandler, hres, hterm]
          rw [hr]
          refine ⟨?_, fun _ => ⟨rfl, rfl⟩, ?_, ?_⟩
          · intro c hc
            rcases List.mem_append.mp hc with hc1 | hc2
            · exact wf c hc1
            · have hceq : c = (l, parseReplyCode (some l), isLastReply (some l)) := by
                simpa using hc2
              subst hceq
              exact ⟨rfl, rfl⟩
          · intro _ hall
            apply hpend rfl
            intro c hc
            exact hall c (List.mem_append.mpr (Or.inl hc))
          · intro hno
            by_cases hall : callsAllOk h (CorrState.mk true ea true true cr pr rc jc hcs)
            · exfalso
              apply hno
              intro c hc
              rcases List.mem_append.mp hc with hc1 | hc2
              · exact hall c hc1
              · have hceq : c = (l, parseReplyCode (some l), isLastReply (some l)) := by
                  simpa using hc2
                subst hceq
                exact hnewok
            · obtain ⟨m, hm, c, hc, he⟩ := hpin hall
              exact ⟨m, hm, c, List.mem_append.mpr (Or.inl hc), he⟩
        | true =>
          cases pr with
          | none =>
            have hr : corrStep k (some h) (CorrState.mk true ea true true cr none rc jc hcs)
                  (Event.line l)
                = CorrState.mk false false false true cr
                    (some (Outcome.resolved (parseReplyCode (some l)))) (rc + 1) jc
                    (hcs ++ [(l, parseReplyCode (some l), isLastReply (some l))]) := by
              simp [corrStep, onLineRun, runHandler, callResolve, trySettle, hres, hterm]
            rw [hr]
            refine ⟨?_, fun hx => absurd hx (by simp [corrStep, onCloseRun, onErrorRun, chanOnCloseRun, connectCallbackCorrEffect, callReject, trySettle]), fun hx => absurd hx (by simp [corrStep, onCloseRun, onErrorRun, chanOnCloseRun, connectCallbackCorrEffect, callReject, trySettle]), ?_⟩
            · intro c hc
              rcases List.mem_append.mp hc with hc1 | hc2
              · exact wf c hc1
              · have hceq : c = (l, parseReplyCode (some l), isLastReply (some l)) := by
                  simpa using hc2
                subst hceq
                exact ⟨rfl, rfl⟩
            · intro hno
              have hallOld : ¬ callsAllOk h (CorrState.mk true ea true true cr none rc jc hcs) := by
                intro hall
                apply hno
                intro c hc
                rcases List.mem_append.mp hc with hc1 | hc2
                · exact hall c hc1
                · have hceq : c = (l, parseReplyCode (some l), isLastReply (some l)) := by
                    simpa using hc2
                  subst hceq
                  exact hnewok
              obtain ⟨m, hm, -⟩ := hpin hallOld
              exact absurd hm (by simp)
          | some o =>
            have hr : corrStep k (some h) (CorrState.mk true ea true true cr (some o) rc jc hcs)
                  (Event.line l)
                = CorrState.mk false false false true cr (some o) (rc + 1) jc
                    (hcs ++ [(l, parseReplyCode (some l), isLastReply (some l))]) := by
              simp [corrStep, onLineRun, runHandler, callResolve, trySettle, hres, hterm]
            rw [hr]
            refine ⟨?_, fun hx => absurd hx (by simp [corrStep, onCloseRun, onErrorRun, chanOnCloseRun, connectCallbackCorrEffect, callReject, trySettle]), fun hx => absurd hx (by simp [corrStep, onCloseRun, onErrorRun, chanOnCloseRun, connectCallbackCorrEffect, callReject, trySettle]), ?_⟩
            · intro c hc
              rcases List.mem_append.mp hc with hc1 | hc2
              · exact wf c hc1
              · have hceq : c = (l, parseReplyCode (some l), isLastReply (some l)) := by
                  simpa using hc2
                subst hceq
                exact ⟨rfl, rfl⟩
            · intro hno
              have hallOld : ¬ callsAllOk h (CorrState.mk true ea true true cr (some o) rc jc hcs) := by
                intro hall
                have hcontra := hpend rfl hall
                exact absurd hcontra (by simp)
              obtain ⟨m, hm, c, hc, he⟩ := hpin hallOld
              exact ⟨m, hm, c, List.mem_append.mpr (Or.inl hc), he⟩
      | error m =>
        have hnewbad : applyH h (l, parseReplyCode (some l), isLastReply (some l))
            = Except.error m := hres
        cases pr with
        | none =>
          cases hterm : (isLastReply (some l)).getD false with
          | false =>
            have hr : corrStep k (some h) (CorrState.mk true ea true true cr none rc jc hcs)
                  (Event.line l)
                = CorrState.mk true ea true true cr
                    (some (Outcome.rejected (JsError.handlerRaised m))) rc (jc + 1)
                    (hcs ++ [(l, parseReplyCode (some l), isLastReply (some l))]) := by
              simp [corrStep, onLineRun, runHandler, callReject, trySettle, hres, hterm]
            rw [hr]
            refine ⟨?_, fun _ => ⟨rfl, rfl⟩, ?_, ?_⟩
            · intro c hc
              rcases List.mem_append.mp hc with hc1 | hc2
              · exact wf c hc1
              · have hceq : c = (l, parseReplyCode (some l), isLastReply (some l)) := by
                  simpa using hc2
                subst hceq
                exact ⟨rfl, rfl⟩
            · intro _ hall
              have hbad := hall (l, parseReplyCode (some l), isLastReply (some l))
                (List.mem_append.mpr (Or.inr (by simp)))
              rw [hnewbad] at hbad
              exact absurd hbad (by simp)
            · intro _
              exact ⟨m, rfl, (l, parseReplyCode (some l), isLastReply (some l)),
                List.mem_append.mpr (Or.inr (by simp)), hnewbad⟩
          | true =>
            have hr : corrStep k (some h) (CorrState.mk true ea true true cr none rc jc hcs)
                  (Event.line l)
                = CorrState.mk false false false true cr
                    (some (Outcome.rejected (JsError.handlerRaised m))) rc (jc + 1)
                    (hcs ++ [(l, parseReplyCode (some l), isLastReply (some l))]) := by
              simp [corrStep, onLineRun, runHandler, callReject, trySettle, hres, hterm]
            rw [hr]
            refine ⟨?_, fun hx => absurd hx (by simp [corrStep, onCloseRun, onErrorRun, chanOnCloseRun, connectCallbackCorrEffect, callReject, trySettle]), fun hx => absurd hx (by simp [corrStep, onCloseRun, onErrorRun, chanOnCloseRun, connectCallbackCorrEffect, callReject, trySettle]), ?_⟩
            · intro c hc
              rcases List.mem_append.mp hc with hc1 | hc2
              · exact wf c hc1
              · have hceq : c = (l, parseReplyCode (some l), isLastReply (some l)) := by
                  simpa using hc2
                subst hceq
                exact ⟨rfl, rfl⟩
            · intro _
              exact ⟨m, rfl, (l, parseReplyCode (some l), isLastReply (some l)),
                List.mem_append.mpr (Or.inr (by simp)), hnewbad⟩
        | some o =>
          have hallOld : ¬ callsAllOk h (CorrState.mk true ea true true cr (some o) rc jc hcs) := by
            intro hall
            have hcontra := hpend rfl hall
            exact absurd hcontra (by simp)
          obtain ⟨m0, hm0, c0, hc0, he0⟩ := hpin hallOld
          cases hterm : (isLastReply (some l)).getD false with
          | false =>
            have hr : corrStep k (some h) (CorrState.mk true ea true true cr (some o) rc jc hcs)
                  (Event.line l)
                = CorrState.mk true ea true true cr (some o) rc (jc + 1)
                    (hcs ++ [(l, parseReplyCode (some l), isLastReply (some l))]) := by
              simp [corrStep, onLineRun, runHandler, callReject, trySettle, hres, hterm]
            rw [hr]
            refine ⟨?_, fun _ => ⟨rfl, rfl⟩, ?_, ?_⟩
            · intro c hc
              rcases List.mem_append.mp hc with hc1 | hc2
              · exact wf c hc1
              · have hceq : c = (l, parseReplyCode (some l), isLastReply (some l)) := by
                  simpa using hc2
                subst hceq
                exact ⟨rfl, rfl⟩
            · intro _ hall
              have hbad := hall (l, parseReplyCode (some l), isLastReply (some l))
                (List.mem_append.mpr (Or.inr (by simp)))
              rw [hnewbad] at hbad
              exact absurd hbad (by simp)
            · intro _
              exact ⟨m0, hm0, c0, List.mem_append.mpr (Or.inl hc0), he0⟩
          | true =>
            have hr : corrStep k (some h) (CorrState.mk true ea true true cr (some o) rc jc hcs)
                  (Event.line l)
                = CorrState.mk false false false true cr (some o) rc (jc + 1)
                    (hcs ++ [(l, parseReplyCode (some l), isLastReply (some l))]) := by
              simp [corrStep, onLineRun, runHandler, callReject, trySettle, hres, hterm]
            rw [hr]
            refine ⟨?_, fun hx => absurd hx (by simp [corrStep, onCloseRun, onErrorRun, chanOnCloseRun, connectCallbackCorrEffect, callReject, trySettle]), fun hx => absurd hx (by simp [corrStep, onCloseRun, onErrorRun, chanOnCloseRun, connectCallbackCorrEffect, callReject, trySettle]), ?_⟩
            · intro c hc
              rcases List.mem_append.mp hc with hc1 | hc2
              · exact wf c hc1
              · have hceq : c = (l, parseReplyCode (some l), isLastReply (some l)) := by
                  simpa using hc2
                subst hceq
                exact ⟨rfl, rfl⟩
            · intro _
              exact ⟨m0, hm0, c0, List.mem_append.mpr (Or.inl hc0), he0⟩

theorem foldl_corrStep_c2Inv (k : ArmKind) (h : HandlerFn) :
    ∀ (evs : List Event) (s : CorrState), c2Inv h s →
      c2Inv h (evs.foldl (corrStep k (some h)) s) := by
  intro evs
  induction evs with
  | nil => intro s hs; simpa using hs
  | cons e t ih =>
    intro s hs
    simp only [List.foldl_cons]
    exact ih (corrStep k (some h) s e) (corrStep_preserves_c2Inv k h s e hs)

theorem runCorr_c2Inv (k : ArmKind) (h : HandlerFn) (evs : List Event) :
    c2Inv h (runCorr k (some h) evs) := by
  apply foldl_corrStep_c2Inv k h evs (armedFor k)
  cases k with
  | greeting =>
    exact ⟨fun c hc => absurd hc (by simp [armedFor, armedGreeting]),
      fun _ => ⟨rfl, rfl⟩, fun _ _ => rfl,
      fun hno => absurd (fun c hc => absurd hc (by simp [armedFor, armedGreeting])) hno⟩
  | command =>
    exact ⟨fun c hc => absurd hc (by simp [armedFor, armedCommand]),
      fun _ => ⟨rfl, rfl⟩, fun _ _ => rfl,
      fun hno => absurd (fun c hc => absurd hc (by simp [armedFor, armedCommand])) hno⟩
/-- Claim C2: for either arming kind, along any event sequence, every
invocation of a supplied per-line handler receives exactly the code and
isLast values computed from its line; whenever some invocation raised, the
promise is rejected with a raised handler failure; and the promise can only
be resolved when every handler invocation — the terminal line included —
returned normally. -/
theorem resolveCommand_handler_contract (kind : ArmKind) (h : HandlerFn) (evs : List Event) :
    callsWellFormed (runCorr kind (some h) evs) ∧
    (¬ callsAllOk h (runCorr kind (some h) evs) →
      handlerFailurePinned h (runCorr kind (some h) evs)) ∧
    (∀ cd, (runCorr kind (some h) evs).promise = some (Outcome.resolved cd) →
      callsAllOk h (runCorr kind (some h) evs)) := by
  obtain ⟨wf, hlsc, hpend, hpin⟩ := runCorr_c2Inv kind h evs
  refine ⟨wf, hpin, ?_⟩
  intro cd hcd
  by_contra hno
  obtain ⟨m, hm, -⟩ := hpin hno
  rw [hcd] at hm
  exact absurd hm (by simp)

/-- Claim C2 witness: a write correlation whose handler raises on the
terminal line makes the promise reject with that failure instead of
resolving with the reply code. -/
theorem resolveCommand_handler_contract_witness :
    (runCorr ArmKind.command (some hBoom) [Event.line "220 hi"]).promise
      = some (Outcome.rejected (JsError.handlerRaised "boom")) := by
  have hno : ¬ callsAllOk hBoom (runCorr ArmKind.command (some hBoom) [Event.line "220 hi"]) := by
    intro hall
    have h1 := hall ("220 hi", some "220", some true) (by decide)
    simp [applyH, hBoom] at h1
  obtain ⟨m, hm, c, hc, he⟩ :=
    (resolveCommand_handler_contract ArmKind.command hBoom [Event.line "220 hi"]).2.1 hno
  have hbm : applyH hBoom c = Except.error "boom" := rfl
  rw [hbm] at he
  injection he with hme
  rw [← hme] at hm
  exact hm

theorem lines_preserve_shape (k : ArmKind) (handler : Option HandlerFn) (b r : Bool) :
    ∀ (ls : List String) (s : CorrState), unsettledShape b r s →
      (∀ l ∈ ls, (isLastReply (some l)).getD false = false ∧
        runHandler handler l (parseReplyCode (some l)) (isLastReply (some l)) = Except.ok ()) →
      unsettledShape b r ((ls.map Event.line).foldl (corrStep k handler) s) := by
  intro ls
  induction ls with
  | nil => intro s hs _; simpa using hs
  | cons l t ih =>
    intro s hs hls
    obtain ⟨hterm, hok⟩ := hls l (by simp)
    simp only [List.map_cons, List.foldl_cons]
    refine ih (corrStep k handler s (Event.line l)) ?_ ?_
    · obtain ⟨h1, h2, h3, h4, h5, h6, h7, h8⟩ := hs
      cases handler with
      | none =>
        have hstep : corrStep k none s (Event.line l) = s := by
          simp [corrStep, onLineRun, runHandler, h3, hterm]
        rw [hstep]
        exact ⟨h1, h2, h3, h4, h5, h6, h7, h8⟩
      | some hf =>
        have hok2 : hf l (parseReplyCode (some l)) (isLastReply (some l)) = Except.ok () := by
          simpa [runHandler] using hok
        have hstep : corrStep k (some hf) s (Event.line l)
            = { s with handlerCalls :=
                  s.handlerCalls ++ [(l, parseReplyCode (some l), isLastReply (some l))] } := by
          simp [corrStep, onLineRun, runHandler, h3, hterm, hok2]
        rw [hstep]
        exact ⟨h1, h2, h3, h4, h5, h6, h7, h8⟩
    · intro x hx
      exact hls x (List.mem_cons_of_mem l hx)

/-- Claim C5 (amended): if the socket emits close after a run of non-terminal
reply lines on which the handler returned normally — so before any terminal
line — the promise is rejected with the socket-closed-unexpectedly error, the
close listener is consumed and the line listener detached.  The error
listener is also detached for a greeting correlation (its onClose still sees
a non-null socket), but for a write correlation the channel _onClose has
already nulled the socket reference, so the onClose guard skips the removal
and the error listener stays attached. -/
theorem resolveCommand_premature_close (handler : Option HandlerFn) (ls : List String)
    (hls : ∀ l ∈ ls, (isLastReply (some l)).getD false = false ∧
      runHandler handler l (parseReplyCode (some l)) (isLastReply (some l)) = Except.ok ()) :
    (runCorr ArmKind.command handler (ls.map Event.line ++ [Event.close])).promise
      = some (Outcome.rejected JsError.socketClosedUnexpectedly) ∧
    (runCorr ArmKind.command handler (ls.map Event.line ++ [Event.close])).closeAttached
      = false ∧
    (runCorr ArmKind.command handler (ls.map Event.line ++ [Event.close])).lineAttached
      = false ∧
    (runCorr ArmKind.command handler (ls.map Event.line ++ [Event.close])).errorAttached
      = true ∧
    (runCorr ArmKind.command handler (ls.map Event.line ++ [Event.close])).socketPresent
      = false ∧
    (runCorr ArmKind.greeting handler
        (Event.connected :: (ls.map Event.line ++ [Event.close]))).promise
      = some (Outcome.rejected JsError.socketClosedUnexpectedly) ∧
    (runCorr ArmKind.greeting handler
        (Event.connected :: (ls.map Event.line ++ [Event.close]))).closeAttached = false ∧
    (runCorr ArmKind.greeting handler
        (Event.connected :: (ls.map Event.line ++ [Event.close]))).lineAttached = false ∧
    (runCorr ArmKind.greeting handler
        (Event.connected :: (ls.map Event.line ++ [Event.close]))).errorAttached = false := by
  have hmidc : unsettledShape true true
      ((ls.map Event.line).foldl (corrStep ArmKind.command handler)
        (armedFor ArmKind.command)) :=
    lines_preserve_shape ArmKind.command handler true true ls (armedFor ArmKind.command)
      ⟨rfl, rfl, rfl, rfl, rfl, rfl, rfl, rfl⟩ hls
  have hmidg : unsettledShape false true
      ((ls.map Event.line).foldl (corrStep ArmKind.greeting handler)
        (connectCallbackCorrEffect (armedFor ArmKind.greeting))) :=
    lines_preserve_shape ArmKind.greeting handler false true ls
      (connectCallbackCorrEffect (armedFor ArmKind.greeting))
      ⟨rfl, rfl, rfl, rfl, rfl, rfl, rfl, rfl⟩ hls
  obtain ⟨c1, c2, c3, c4, c5, c6, c7, c8⟩ := hmidc
  obtain ⟨g1, g2, g3, g4, g5, g6, g7, g8⟩ := hmidg
  rw [runCorr, runCorr, List.foldl_cons, List.foldl_append, List.foldl_append]
  simp only [List.foldl_cons, List.foldl_nil]
  refine ⟨?_, ?_, ?_, ?_, ?_, ?_, ?_, ?_, ?_⟩ <;>
    simp [corrStep, chanOnCloseRun, onCloseRun, callReject, trySettle,
      c1, c2, c3, c4, c5, c6, g1, g2, g3, g4, g5, g6]

/-- Claim C5 witness: one non-terminal reply line followed by a premature
close, with no handler supplied, for both arming kinds. -/
theorem resolveCommand_premature_close_witness :
    (runCorr ArmKind.command none [Event.line "250-hello", Event.close]).promise
      = some (Outcome.rejected JsError.socketClosedUnexpectedly) ∧
    (runCorr ArmKind.command none [Event.line "250-hello", Event.close]).closeAttached
      = false ∧
    (runCorr ArmKind.command none [Event.line "250-hello", Event.close]).lineAttached
      = false ∧
    (runCorr ArmKind.command none [Event.line "250-hello", Event.close]).errorAttached
      = true ∧
    (runCorr ArmKind.command none [Event.line "250-hello", Event.close]).socketPresent
      = false ∧
    (runCorr ArmKind.greeting none
        [Event.connected, Event.line "250-hello", Event.close]).promise
      = some (Outcome.rejected JsError.socketClosedUnexpectedly) ∧
    (runCorr ArmKind.greeting none
        [Event.connected, Event.line "250-hello", Event.close]).closeAttached = false ∧
    (runCorr ArmKind.greeting none
        [Event.connected, Event.line "250-hello", Event.close]).lineAttached = false ∧
    (runCorr ArmKind.greeting none
        [Event.connected, Event.line "250-hello", Event.close]).errorAttached = false := by
  have hls : ∀ l ∈ ["250-hello"], (isLastReply (some l)).getD false = false ∧
      runHandler none l (parseReplyCode (some l)) (isLastReply (some l)) = Except.ok () := by
    intro l hl
    have hleq : l = "250-hello" := by simpa using hl
    subst hleq
    exact ⟨rfl, rfl⟩
  exact resolveCommand_premature_close none ["250-hello"] hls

/-- Claim C5 counterexample to the literal claim: a write correlation whose
socket closes prematurely is rejected with the connection-closed error, yet
its error listener is not detached — the channel _onClose nulled the socket
reference first, so the onClose guard skipped the removal. -/
theorem resolveCommand_premature_close_counterexample :
    (runCorr ArmKind.command none [Event.close]).promise
      = some (Outcome.rejected JsError.socketClosedUnexpectedly) ∧
    (runCorr ArmKind.command none [Event.close]).errorAttached = true := by
  decide

/-- Claim C1 (amended): provided the caller-supplied per-line handler returns
normally on every non-terminal line, a correlation armed by _resolveCommand —
of either kind — settles at most once along any sequence of line, close,
error and connect events: the resolver and rejecter are invoked at most once
in total, they have been invoked exactly once exactly when the promise is
settled, and the close and line listeners are attached exactly while the
promise is pending.  Settlement does not always detach the error listener:
on the close path of a write correlation it stays attached (the channel
_onClose nulls the socket first, and a later error event aborts on the null
socket before reaching the rejecter), and a greeting correlation loses its
error listener to the connect callback before settlement. -/
theorem resolveCommand_exactly_once (kind : ArmKind) (handler : Option HandlerFn)
    (hb : handlerBenign handler) (evs : List Event) :
    (runCorr kind handler evs).resolveCalls + (runCorr kind handler evs).rejectCalls ≤ 1 ∧
    (runCorr kind handler evs).promise.isSome
      = ((runCorr kind handler evs).resolveCalls
          + (runCorr kind handler evs).rejectCalls == 1) ∧
    (runCorr kind handler evs).closeAttached = !(runCorr kind handler evs).promise.isSome ∧
    (runCorr kind handler evs).lineAttached = !(runCorr kind handler evs).promise.isSome := by
  rcases runCorr_corrInvK kind handler hb evs with huns | hset
  · obtain ⟨h1, h2, h3, h4, h5, h6, -⟩ := huns
    rw [h1, h2, h4, h5, h6]
    simp
  · obtain ⟨h1, h2, h3, h4, -, -⟩ := hset
    rw [h1, h2, h3, h4]
    simp

/-- Claim C1 witness: a write correlation with no handler, a terminal reply
line settling it, and a later close event changing nothing. -/
theorem resolveCommand_exactly_once_witness :
    (runCorr ArmKind.command none [Event.line "220 hi", Event.close]).resolveCalls
        + (runCorr ArmKind.command none [Event.line "220 hi", Event.close]).rejectCalls ≤ 1 ∧
    (runCorr ArmKind.command none [Event.line "220 hi", Event.close]).promise.isSome
      = ((runCorr ArmKind.command none [Event.line "220 hi", Event.close]).resolveCalls
          + (runCorr ArmKind.command none [Event.line "220 hi", Event.close]).rejectCalls
            == 1) ∧
    (runCorr ArmKind.command none [Event.line "220 hi", Event.close]).closeAttached
      = !(runCorr ArmKind.command none [Event.line "220 hi", Event.close]).promise.isSome ∧
    (runCorr ArmKind.command none [Event.line "220 hi", Event.close]).lineAttached
      = !(runCorr ArmKind.command none [Event.line "220 hi", Event.close]).promise.isSome :=
  resolveCommand_exactly_once ArmKind.command none (fun _ => Or.inr rfl)
    [Event.line "220 hi", Event.close]

/-- Claim C1 counterexample to the literal claim: a handler raising on a
non-terminal line settles the promise while all three listeners stay
attached and a later close invokes the rejecter a second time; a write
correlation closed prematurely keeps its error listener attached after
settlement; and the connect callback strips the greeting correlation's error
listener while the promise is still pending. -/
theorem resolveCommand_exactly_once_counterexample :
    (runCorr ArmKind.command (some hBoom) [Event.line "250-x"]).promise
      = some (Outcome.rejected (JsError.handlerRaised "boom")) ∧
    (runCorr ArmKind.command (some hBoom) [Event.line "250-x"]).lineAttached = true ∧
    (runCorr ArmKind.command (some hBoom) [Event.line "250-x"]).closeAttached = true ∧
    (runCorr ArmKind.command (some hBoom) [Event.line "250-x"]).errorAttached = true ∧
    (runCorr ArmKind.command (some hBoom) [Event.line "250-x", Event.close]).rejectCalls
      = 2 ∧
    (runCorr ArmKind.command none [Event.close]).errorAttached = true ∧
    (runCorr ArmKind.command none [Event.close]).promise.isSome = true ∧
    (runCorr ArmKind.greeting none [Event.connected]).promise = none ∧
    (runCorr ArmKind.greeting none [Event.connected]).errorAttached = false := by
  decide

/-- Claim C6: while a socket exists, a second connect call is an idempotent
no-op — _connectAsPromised resolves immediately, leaving the channel
unchanged: no second socket is opened and no greeting correlation is
re-armed. -/
theorem connect_idempotent_when_connected (c : Channel) (s : Sock)
    (h : c.socket = some s) :
    connectAsPromisedEntry c = (c, ConnectAction.resolveImmediately) := by
  simp [connectAsPromisedEntry, h]

/-- Claim C6 witness: a concrete connected channel. -/
theorem connect_idempotent_when_connected_witness :
    chanConnected.socket = some { id := 0, mode := Mode.plain } ∧
    connectAsPromisedEntry chanConnected = (chanConnected, ConnectAction.resolveImmediately) :=
  ⟨rfl, connect_idempotent_when_connected chanConnected { id := 0, mode := Mode.plain } rfl⟩

/-- Claim C7: _closeAsPromised resolves immediately when there is no socket;
otherwise it destroys the socket and defers resolution to that socket close
event, while clearing the channel socket reference synchronously — so a
concurrent write against the resulting state rejects at once with the
no-active-connection error instead of targeting the dying socket. -/
theorem close_clears_socket_then_waits (c : Channel) :
    (c.socket = none → closeAsPromisedEntry c = (c, CloseAction.resolveImmediately)) ∧
    (∀ s, c.socket = some s →
      (closeAsPromisedEntry c).1.socket = none ∧
      (closeAsPromisedEntry c).2 = CloseAction.destroyedAwaitingCloseEvent s.id ∧
      (writeAsPromisedEntry (closeAsPromisedEntry c).1 "RSET\r\n").2
        = WriteAction.rejectNoSocket ∧
      (closeAsPromisedEntry c).1 = { c with socket := none }) := by
  constructor
  · intro h
    simp [closeAsPromisedEntry, h]
  · intro s h
    simp [closeAsPromisedEntry, writeAsPromisedEntry, h]

/-- Claim C7 witness: a disconnected channel resolves immediately; a
connected channel has its socket cleared, awaits the close event of socket 0,
and a concurrent write fails fast. -/
theorem close_clears_socket_then_waits_witness :
    closeAsPromisedEntry (mkChannel defaultConfig)
      = (mkChannel defaultConfig, CloseAction.resolveImmediately) ∧
    (closeAsPromisedEntry chanConnected).1.socket = none ∧
    (closeAsPromisedEntry chanConnected).2 = CloseAction.destroyedAwaitingCloseEvent 0 ∧
    (writeAsPromisedEntry (closeAsPromisedEntry chanConnected).1 "RSET\r\n").2
      = WriteAction.rejectNoSocket := by
  have h1 := (close_clears_socket_then_waits (mkChannel defaultConfig)).1 rfl
  have h2 := (close_clears_socket_then_waits chanConnected).2 { id := 0, mode := Mode.plain } rfl
  exact ⟨h1, h2.1, h2.2.1, h2.2.2.1⟩

/-- Claim C8: starting from a disconnected channel, once the connect success
callback has run the isSecure accessor agrees with the mode of the socket
that was established — false for a plaintext connect, true when the
configuration had the secure option — and after a successful transport
upgrade (_negotiateTLSAsPromised plus its success callback) the accessor
returns true and the live socket is the encrypted one. -/
theorem isSecure_tracks_socket_mode (c : Channel) (h : c.socket = none) :
    isSecureFn (connectCallbackRun (connectAsPromisedEntry c).1)
      = modeIsTLS (connectCallbackRun (connectAsPromisedEntry c).1).socket ∧
    isSecureFn
        (negotiateCallbackRun (negotiateEntryRun
          (connectCallbackRun (connectAsPromisedEntry c).1))) = true ∧
    modeIsTLS
        (negotiateCallbackRun (negotiateEntryRun
          (connectCallbackRun (connectAsPromisedEntry c).1))).socket = true := by
  cases hsec : c.config.secure with
  | false =>
    simp [isSecureFn, connectCallbackRun, connectAsPromisedEntry, negotiateEntryRun,
      negotiateCallbackRun, modeIsTLS, createSocketMode, h, hsec]
  | true =>
    simp [isSecureFn, connectCallbackRun, connectAsPromisedEntry, negotiateEntryRun,
      negotiateCallbackRun, modeIsTLS, createSocketMode, h, hsec]

/-- Claim C8 witness: a concrete plaintext channel — isSecure is false and
matches the plain socket after connect, and becomes true with an encrypted
socket after the upgrade. -/
theorem isSecure_tracks_socket_mode_witness :
    isSecureFn (connectCallbackRun (connectAsPromisedEntry (mkChannel defaultConfig)).1)
      = modeIsTLS (connectCallbackRun (connectAsPromisedEntry (mkChannel defaultConfig)).1).socket ∧
    isSecureFn
        (negotiateCallbackRun (negotiateEntryRun
          (connectCallbackRun (connectAsPromisedEntry (mkChannel defaultConfig)).1))) = true ∧
    modeIsTLS
        (negotiateCallbackRun (negotiateEntryRun
          (connectCallbackRun (connectAsPromisedEntry (mkChannel defaultConfig)).1))).socket
      = true :=
  isSecure_tracks_socket_mode (mkChannel defaultConfig) rfl

/-- Claim C9: _onTimeout first emits the timeout observer event and then
issues the QUIT command through write; the channel state is exactly the one
the write produces, yet the visible step trace never depends on the channel —
in particular not on whether that auto-issued write resolved or rejected — so
its completion is not awaited and its failures are not surfaced. -/
theorem timeout_emits_then_quit (c : Channel) :
    (onTimeoutRun c).2 = [TimeoutStep.emitTimeout, TimeoutStep.issueWrite "QUIT\r\n"] ∧
    (onTimeoutRun c).1 = (writeAsPromisedEntry c "QUIT\r\n").1 ∧
    (∀ c2 : Channel, (onTimeoutRun c).2 = (onTimeoutRun c2).2) :=
  ⟨rfl, rfl, fun _ => rfl⟩

/-- Claim C10: the channel-level _onClose handler nulls the socket reference,
whatever caused the close event; afterwards any write rejects with the
no-active-connection error and a new connect call opens a fresh socket and
arms a fresh greeting correlation instead of resolving as a no-op. -/
theorem socket_close_resets_channel (c : Channel) (d : String) :
    (onChannelCloseRun c).socket = none ∧
    (writeAsPromisedEntry (onChannelCloseRun c) d).2 = WriteAction.rejectNoSocket ∧
    (connectAsPromisedEntry (onChannelCloseRun c)).2 = ConnectAction.openedSocketAndArmed ∧
    (connectAsPromisedEntry (onChannelCloseRun c)).1.socket
      = some { id := c.nextId, mode := createSocketMode c.config.secure c.config.secure } ∧
    (connectAsPromisedEntry (onChannelCloseRun c)).1.armedCount = c.armedCount + 1 := by
  simp [onChannelCloseRun, writeAsPromisedEntry, connectAsPromisedEntry]

end SMTP
